import Mathlib

/-!
Verification of the SSH Request Transmission Layer (RTL) of
drivers/misc/surface_sam/ssh_request_layer.c.

The request state word (an atomic bit set in the C code) is embedded as a
structure of independent booleans; atomic bit operations (test_and_set_bit,
test_and_clear_bit, cmpxchg) become pure reads and functional updates.  The
intrusive lists (submission queue, pending set) are embedded as Lean lists of
requests; membership of a request in a list is tracked, as in the code, by its
QUEUED / PENDING bit.  ktime_t values are embedded as Int (milliseconds), with
KTIME_MAX embedded as the value none of Option Int.  Invocations of the
client's complete callback are made observable as explicit event values
returned by each operation.

Concurrency is embedded at the granularity of the code's atomic sections: each
finalisation path of a request (response match, packet callback, timeout reap,
cancellation, shutdown drain) is one atomic step of a transition system, and
theorems quantify over all interleavings (all step traces).  Races between
paths are decided, as in the code, by the LOCKED / CANCELED / COMPLETED bits.
-/

namespace SshRtl

/-! Error codes (positive magnitudes; the code returns their negations). -/

def ENOENT : Int := 2
def EINTR : Int := 4
def EAGAIN : Int := 11
def EBUSY : Int := 16
def EINVAL : Int := 22
def ESHUTDOWN : Int := 108
def ETIMEDOUT : Int := 110
def EALREADY : Int := 114
def EREMOTEIO : Int := 121
def ECANCELED : Int := 125

/-! Tunables from the source. -/

def SSH_RTL_MAX_PENDING : Nat := 3

/-- SSH_RTL_REQUEST_TIMEOUT = ms_to_ktime(3000), in milliseconds. -/
def SSH_RTL_REQUEST_TIMEOUT : Int := 3000

/-- SSH_RTL_REQUEST_TIMEOUT_RESOLUTION = ms_to_ktime(max(2000 / HZ, 50)),
in milliseconds, parameterised by the kernel tick rate HZ. -/
def SSH_RTL_REQUEST_TIMEOUT_RESOLUTION (hz : Int) : Int := max (2000 / hz) 50

/--
A request (struct ssh_request together with the relevant parts of its
embedded struct ssh_packet).

State bits of the atomic state word: queued, transmitting, transmitted,
pending, rsprcvd, locked, canceled, completed (the SF bits) and hasResponse,
flush (the TY bits).  seqd is the SEQUENCED type bit of the embedded packet;
ptlBound is whether packet.ptl is non-NULL (bound by ssh_rtl_submit).

submitted records whether ssh_ptl_submit accepted the packet, and cbDone
whether the packet completion callback has already been invoked; both are
environment facts of the packet layer (the PTL invokes the completion callback
exactly once, and only for accepted or cancelled packets), used to scope when
packet-callback steps can occur.

timestamp is the monotonic transmission timestamp (none = KTIME_MAX).
-/
structure Request where
  id : Nat := 0
  rqid : Nat := 0
  hasResponse : Bool := false
  flush : Bool := false
  seqd : Bool := false
  queued : Bool := false
  transmitting : Bool := false
  transmitted : Bool := false
  pending : Bool := false
  rsprcvd : Bool := false
  locked : Bool := false
  canceled : Bool := false
  completed : Bool := false
  ptlBound : Bool := false
  submitted : Bool := false
  cbDone : Bool := false
  timestamp : Option Int := none
deriving DecidableEq

/-- An invocation of the client's complete callback:
Ev.st v is complete(rqst, NULL, NULL, v); Ev.rsp is complete(rqst, cmd, data, 0)
with the response command and payload. -/
inductive Ev where
  | st : Int → Ev
  | rsp : Ev
deriving DecidableEq

/-- State of the request transmission layer (struct ssh_rtl): the SHUTDOWN
bit, the submission queue list, and the pending set (list plus counter). -/
structure RtlState where
  shutdown : Bool := false
  queue : List Request := []
  pendingCount : Nat := 0
  pendingList : List Request := []
deriving DecidableEq

/-! ### ssh_rtl_submit -/

/--
ssh_rtl_submit: reject with -EINVAL a request that has HAS_RESPONSE but whose
packet is not sequenced; bind packet.ptl, rejecting re-submission with
-EALREADY; under the queue lock reject -ESHUTDOWN if the layer is shut down
and -EINVAL if the request is locked; otherwise set QUEUED and append to the
queue.  Returns (status, new layer state, new request state).
-/
def ssh_rtl_submit (rtl : RtlState) (r : Request) : Int × RtlState × Request :=
  if r.hasResponse && !r.seqd then (-EINVAL, rtl, r)
  else if r.ptlBound then (-EALREADY, rtl, r)
  else
    let r1 : Request := { r with ptlBound := true }
    if rtl.shutdown then (-ESHUTDOWN, rtl, r1)
    else if r1.locked then (-EINVAL, rtl, r1)
    else
      let r2 : Request := { r1 with queued := true }
      (0, { rtl with queue := rtl.queue ++ [r2] }, r2)

/-! ### ssh_rtl_timeout_reaper_mod

The CAS loop on rtl->rtx_timeout.expires, embedded sequentially (single
uninterfered location).  stored is the current value of the expires field,
expires the desired new expiration, res the resolution
SSH_RTL_REQUEST_TIMEOUT_RESOLUTION.  All times in ms.  The loop runs while
ktime_before(expires + res, stored); on a successful exchange the loop exits
with old = expires and the delayed work is rescheduled for the delta
msecs_to_jiffies(ktime_ms_delta(expires, now)) = expires - now.  The result is
the new value of the expires field and the rescheduled delay (none = the work
was not rescheduled). -/
def ssh_rtl_timeout_reaper_mod (stored now expires res : Int) : Int × Option Int :=
  if expires + res < stored then (expires, some (expires - now))
  else if stored = expires then (stored, some (expires - now))
  else (stored, none)

end SshRtl

namespace SshRtl

/-! ### Theorems for C3 and C8 -/

/-- Example request for witnesses: a plain fire-and-forget request. -/
def reqPlain : Request := { id := 1, rqid := 65 }

/-- C3: ssh_rtl_submit returns exactly one of -EINVAL (HAS_RESPONSE without a
sequenced packet), -EALREADY (packet.ptl already bound), -ESHUTDOWN (layer
SHUTDOWN bit set), -EINVAL (request LOCKED), else 0 after setting QUEUED and
appending the request to the queue, the checks made in that order. -/
theorem C3_submit_status (rtl : RtlState) (r : Request) :
    ((r.hasResponse = true ∧ r.seqd = false) →
       (ssh_rtl_submit rtl r).1 = -EINVAL)
    ∧ (¬(r.hasResponse = true ∧ r.seqd = false) → r.ptlBound = true →
       (ssh_rtl_submit rtl r).1 = -EALREADY)
    ∧ (¬(r.hasResponse = true ∧ r.seqd = false) → r.ptlBound = false →
       rtl.shutdown = true →
       (ssh_rtl_submit rtl r).1 = -ESHUTDOWN)
    ∧ (¬(r.hasResponse = true ∧ r.seqd = false) → r.ptlBound = false →
       rtl.shutdown = false → r.locked = true →
       (ssh_rtl_submit rtl r).1 = -EINVAL)
    ∧ (¬(r.hasResponse = true ∧ r.seqd = false) → r.ptlBound = false →
       rtl.shutdown = false → r.locked = false →
       ssh_rtl_submit rtl r =
         (0, { rtl with queue :=
                 rtl.queue ++ [{ r with ptlBound := true, queued := true }] },
          { r with ptlBound := true, queued := true })) := by
  unfold ssh_rtl_submit
  refine ⟨?_, ?_, ?_, ?_, ?_⟩ <;> intros <;> split_ifs <;> simp_all

/-- Witness for C3: on a fresh plain request and a running layer, submit
returns 0 and queues the request. -/
theorem C3_submit_status_witness :
    ssh_rtl_submit {} reqPlain =
      (0, { ({} : RtlState) with queue :=
              [{ reqPlain with ptlBound := true, queued := true }] },
       { reqPlain with ptlBound := true, queued := true }) := by
  have h := (C3_submit_status {} reqPlain).2.2.2.2
    (by decide) (by decide) (by decide) (by decide)
  simpa using h

/-- C8 counterexample: the claim says the stored expires field is CASed
downward whenever the new expiration is earlier than the stored one, and that
the resolution floor is added to the scheduled delta.  In the code the CAS
loop condition is ktime_before(expires + resolution, stored), and the
scheduled delta is exactly expires - now with no floor added.  Concretely with
resolution = max(2000/250, 50) = 50 ms: for stored = 100, now = 0,
expires = 60 the new expiration is earlier than the stored one yet the field
keeps the value 100 and the work is not rescheduled; and for stored = 10000,
the work is rescheduled for exactly 60 ms, not 60 + 50 ms. -/
theorem C8_reaper_mod_counterexample :
    (60 : Int) < 100
    ∧ ssh_rtl_timeout_reaper_mod 100 0 60
        (SSH_RTL_REQUEST_TIMEOUT_RESOLUTION 250) = (100, none)
    ∧ ssh_rtl_timeout_reaper_mod 10000 0 60
        (SSH_RTL_REQUEST_TIMEOUT_RESOLUTION 250) = (60, some 60)
    ∧ some (60 : Int) ≠ some (60 + SSH_RTL_REQUEST_TIMEOUT_RESOLUTION 250) := by
  decide

/-- C8 (amended): the stored expires field is lowered to the new expiration
exactly when the new expiration plus the resolution floor max(2000/HZ, 50) ms
is still earlier than the stored value (so the field is never lowered by less
than the floor); on success the reaper work is rescheduled for the exact delta
between the expiration and now, with no floor added to the delta; when the
comparison fails and the stored value does not equal the new expiration,
nothing changes; when the stored value already equals the new expiration, the
work is rescheduled for the delta without changing the field. -/
theorem C8_reaper_mod_amended (stored now expires res : Int) :
    (expires + res < stored →
       ssh_rtl_timeout_reaper_mod stored now expires res
         = (expires, some (expires - now)))
    ∧ (¬ expires + res < stored → stored ≠ expires →
       ssh_rtl_timeout_reaper_mod stored now expires res = (stored, none))
    ∧ (¬ expires + res < stored → stored = expires →
       ssh_rtl_timeout_reaper_mod stored now expires res
         = (stored, some (expires - now))) := by
  unfold ssh_rtl_timeout_reaper_mod
  refine ⟨?_, ?_, ?_⟩ <;> intros <;> simp_all

/-- Witness for C8 (amended): arming with an expiration more than the
resolution below the stored value lowers the field and schedules the delta. -/
theorem C8_reaper_mod_amended_witness :
    ssh_rtl_timeout_reaper_mod 10000 0 60 50 = (60, some 60) :=
  (C8_reaper_mod_amended 10000 0 60 50).1 (by decide)

end SshRtl

namespace SshRtl

/-! ### ssh_request_init and ssh_rtl_flush -/

/--
ssh_request_init(rqst, flags, ops): the packet is sequenced unless the
SSAM_REQUEST_UNSEQUENCED flag is given; the state word is zero except for the
HAS_RESPONSE type bit when the SSAM_REQUEST_HAS_RESPONSE flag is given;
packet.ptl is NULL and the timestamp is KTIME_MAX.
-/
def ssh_request_init (hasResponseFlag unseqFlag : Bool) : Request :=
  { seqd := !unseqFlag, hasResponse := hasResponseFlag }

/-- The internal flush request built by ssh_rtl_flush: initialised with
init_flags = SSAM_REQUEST_UNSEQUENCED, then the FLUSH type bit is set on the
request (the packet's own FLUSH type bit and its priority are not modelled, as
they only affect the packet layer). -/
def flushRequest : Request :=
  { ssh_request_init false true with flush := true }

/--
ssh_rtl_flush(rtl, timeout): submit flushRequest; on a nonzero submission
status return it.  Otherwise wait.  completedInTime says whether
wait_for_completion_timeout succeeded within the given timeout; if so return 0.
Otherwise cancel the request, wait for its completion, and return -ETIMEDOUT
when the request's completion status rqstStatus is -ECANCELED, else return the
(zero) submission status.  rqstStatus is the status the flush request was
completed with by whichever path finalised it.
-/
def ssh_rtl_flush (rtl : RtlState) (completedInTime : Bool) (rqstStatus : Int) : Int :=
  let status := (ssh_rtl_submit rtl flushRequest).1
  if status ≠ 0 then status
  else if completedInTime then 0
  else if rqstStatus = -ECANCELED then -ETIMEDOUT
  else status

/-- On a fresh flush request, submission can only return 0 or -ESHUTDOWN:
the request has no HAS_RESPONSE bit, an unbound packet and a clear LOCKED bit,
so only the SHUTDOWN check can fire. -/
theorem flush_submit_status (rtl : RtlState) :
    (ssh_rtl_submit rtl flushRequest).1 = if rtl.shutdown then -ESHUTDOWN else 0 := by
  unfold ssh_rtl_submit flushRequest ssh_request_init
  split_ifs <;> simp_all

/-- C4 counterexample: the claim says flush returns -ESHUTDOWN whenever the
layer was shut down before the flush completed.  In the code -ESHUTDOWN is
only returned when the submission itself was rejected; if the layer shuts down
after submission, the flush request is completed with -ESHUTDOWN (spec section
7: the completion status -ESHUTDOWN means the layer shut down before
completion) but ssh_rtl_flush returns 0, both when the completion arrives
within the timeout and on the cancellation path, because the final return maps
every non-ECANCELED completion status to the zero submission status. -/
theorem C4_flush_shutdown_counterexample :
    ssh_rtl_flush {} true (-ESHUTDOWN) = 0
    ∧ ssh_rtl_flush {} false (-ESHUTDOWN) = 0
    ∧ (0 : Int) ≠ -ESHUTDOWN := by
  decide

/-- C4 (amended): flush submits an internal flush request and waits up to the
timeout; on timeout it cancels the request and waits, mapping a cancellation
outcome (-ECANCELED) to -ETIMEDOUT.  Its return value is always one of 0,
-ETIMEDOUT, -ESHUTDOWN, and it returns -ESHUTDOWN exactly when the layer was
already shut down when the flush request was submitted; when the layer shuts
down only after submission, the flush request is completed with -ESHUTDOWN but
flush returns 0 (in particular the documented -EINTR is never returned, since
every non-ECANCELED completion status is mapped to the zero submission
status). -/
theorem C4_flush_status_amended (rtl : RtlState) (cit : Bool) (rs : Int) :
    (ssh_rtl_flush rtl cit rs = 0 ∨ ssh_rtl_flush rtl cit rs = -ETIMEDOUT
      ∨ ssh_rtl_flush rtl cit rs = -ESHUTDOWN)
    ∧ (ssh_rtl_flush rtl cit rs = -ESHUTDOWN ↔ rtl.shutdown = true)
    ∧ (rtl.shutdown = false → cit = false → rs = -ECANCELED →
        ssh_rtl_flush rtl cit rs = -ETIMEDOUT)
    ∧ (rtl.shutdown = false → cit = false → rs ≠ -ECANCELED →
        ssh_rtl_flush rtl cit rs = 0) := by
  have h := flush_submit_status rtl
  rcases hs : rtl.shutdown <;> rw [hs] at h <;>
    simp only [ssh_rtl_flush, h] <;> split_ifs <;>
    simp_all [ESHUTDOWN, ETIMEDOUT, ECANCELED]

/-- Witness for C4 (amended): a timed-out flush whose request was completed
with -ECANCELED returns -ETIMEDOUT. -/
theorem C4_flush_status_amended_witness :
    ssh_rtl_flush {} false (-ECANCELED) = -ETIMEDOUT :=
  (C4_flush_status_amended {} false (-ECANCELED)).2.2.1 rfl rfl rfl

end SshRtl

namespace SshRtl

/-! ### Transmitter: ssh_rtl_tx_can_process and ssh_rtl_tx_next -/

/--
ssh_rtl_tx_can_process(rqst): a FLUSH-typed request can be processed only when
the pending counter is zero; any other request only while the pending counter
is below SSH_RTL_MAX_PENDING.  The function reads exactly the pending counter
and the request's FLUSH type bit, which are its two arguments here.
-/
def ssh_rtl_tx_can_process (cnt : Nat) (flushBit : Bool) : Bool :=
  if flushBit then cnt == 0 else decide (cnt < SSH_RTL_MAX_PENDING)

/--
ssh_rtl_tx_next: scan the queue head to tail under the queue lock, skipping
(and keeping) any request whose LOCKED bit is set; at the first non-locked
request, stop with -EBUSY if it cannot be processed, otherwise mark it
TRANSMITTING, clear QUEUED, unlink it and return it together with the
remaining queue; -ENOENT if no non-locked request exists.
-/
def ssh_rtl_tx_next (cnt : Nat) : List Request → Except Int (Request × List Request)
  | [] => .error (-ENOENT)
  | r :: rest =>
    if r.locked then
      match ssh_rtl_tx_next cnt rest with
      | .error e => .error e
      | .ok (q, rest2) => .ok (q, r :: rest2)
    else if ssh_rtl_tx_can_process cnt r.flush then
      .ok ({ r with transmitting := true, queued := false }, rest)
    else
      .error (-EBUSY)

/-- Example request for the C7 counterexample: a regular queued request. -/
def reqA : Request := { id := 2, rqid := 66, queued := true, ptlBound := true }

/-- The flush request as it sits in the pending set after the transmitter has
handed its packet to the PTL. -/
def flushPendingEx : Request :=
  { flushRequest with ptlBound := true, transmitting := true, pending := true }

/-- C7 counterexample: the claim says a pending flush blocks all later
dequeues.  In the code, once the flush request has entered the pending set
(pending counter 1), a later regular request at the head of the queue is still
eligible, since ssh_rtl_tx_can_process only requires the counter to be below
SSH_RTL_MAX_PENDING = 3 for non-FLUSH requests: with the flush request pending
and reqA queued, ssh_rtl_tx_next dequeues reqA.  Only a flush request still
waiting in the queue blocks later dequeues (via the stop-at-head behaviour). -/
theorem C7_pending_flush_counterexample :
    flushPendingEx.flush = true ∧ flushPendingEx.pending = true
    ∧ ssh_rtl_tx_can_process 1 reqA.flush = true
    ∧ ssh_rtl_tx_next 1 [reqA]
        = .ok ({ reqA with transmitting := true, queued := false }, []) :=
  ⟨rfl, rfl, rfl, rfl⟩

/-- C7 (amended): during dequeue, a request with the FLUSH type bit is
eligible only when the pending count is exactly zero, while any other request
is eligible only when the pending count is below SSH_RTL_MAX_PENDING = 3; an
ineligible first non-locked request causes the transmitter to stop dequeuing
with -EBUSY (it does not skip past it), so an ineligible flush still waiting
in the queue blocks all later dequeues; an eligible first non-locked request
is the one dequeued.  (Once the flush has entered the pending set, later
dequeues are gated only by the ordinary pending window; see the
counterexample.) -/
theorem C7_dequeue_eligibility_amended (cnt : Nat) (q : List Request) (r : Request) :
    (r.flush = true → (ssh_rtl_tx_can_process cnt r.flush = true ↔ cnt = 0))
    ∧ (r.flush = false →
        (ssh_rtl_tx_can_process cnt r.flush = true ↔ cnt < SSH_RTL_MAX_PENDING))
    ∧ (q.find? (fun x => !x.locked) = some r →
        ssh_rtl_tx_can_process cnt r.flush = false →
        ssh_rtl_tx_next cnt q = .error (-EBUSY))
    ∧ (q.find? (fun x => !x.locked) = some r →
        ssh_rtl_tx_can_process cnt r.flush = true →
        ∃ rest, ssh_rtl_tx_next cnt q
          = .ok ({ r with transmitting := true, queued := false }, rest)) := by
  refine ⟨?_, ?_, ?_, ?_⟩
  · intro hf
    simp [ssh_rtl_tx_can_process, hf]
  · intro hf
    simp [ssh_rtl_tx_can_process, hf]
  · intro hfind hcan
    induction q with
    | nil => simp at hfind
    | cons a as ih =>
      rw [List.find?_cons] at hfind
      unfold ssh_rtl_tx_next
      rcases hl : a.locked with _ | _
      · simp [hl] at hfind
        subst hfind
        simp [hl, hcan]
      · simp [hl] at hfind ⊢
        rw [ih hfind]
  · intro hfind hcan
    induction q with
    | nil => simp at hfind
    | cons a as ih =>
      rw [List.find?_cons] at hfind
      unfold ssh_rtl_tx_next
      rcases hl : a.locked with _ | _
      · simp [hl] at hfind
        subst hfind
        refine ⟨as, ?_⟩
        simp [hl, hcan]
      · simp [hl] at hfind ⊢
        obtain ⟨rest, hrest⟩ := ih hfind
        exact ⟨a :: rest, by rw [hrest]⟩

/-- Witness for C7 (amended): with an empty pending set, a queued flush
request is eligible and dequeued. -/
theorem C7_dequeue_eligibility_amended_witness :
    ∃ rest, ssh_rtl_tx_next 0 [{ flushRequest with queued := true, ptlBound := true }]
      = .ok ({ { flushRequest with queued := true, ptlBound := true } with
                 transmitting := true, queued := false }, rest) :=
  (C7_dequeue_eligibility_amended 0
      [{ flushRequest with queued := true, ptlBound := true }]
      { flushRequest with queued := true, ptlBound := true }).2.2.2
    (by decide) (by decide)

end SshRtl

namespace SshRtl

/-! ### Timeout reaper: ssh_rtl_timeout_reap

ktime_t is embedded as Option Int, none being KTIME_MAX. -/

/-- ssh_request_get_expiration: timestamp + timeout if the timestamp has been
recorded, KTIME_MAX otherwise. -/
def ssh_request_get_expiration (r : Request) (timeo : Int) : Option Int :=
  match r.timestamp with
  | some t => some (t + timeo)
  | none => none

/-- ktime_after(a, now): a is strictly after now; KTIME_MAX is after all. -/
def ktime_after (a : Option Int) (now : Int) : Bool :=
  match a with
  | none => true
  | some x => decide (now < x)

/-- ktime_before on Option-embedded ktime values. -/
def kbefore (a b : Option Int) : Bool :=
  match a, b with
  | none, _ => false
  | some _, none => true
  | some x, some y => decide (x < y)

/-- next = ktime_before(expires, next) ? expires : next. -/
def kmin (a b : Option Int) : Option Int := if kbefore a b then a else b

/-- max of two ktime values; KTIME_MAX dominates. -/
def kmax (a b : Option Int) : Option Int :=
  match a, b with
  | none, _ => none
  | _, none => none
  | some x, some y => some (max x y)

/--
The locked walk of the pending list in ssh_rtl_timeout_reap: a request whose
expiration is still after now stays and lowers the next wake time; an expired
request on which test_and_set_bit(LOCKED) loses (already locked) stays and is
skipped; an expired request on which the reaper wins LOCKED gets PENDING
cleared and is unlinked into the claimed list.  Returns (remaining pending
list, claimed list, next wake time).
-/
def reapScan (timeo now : Int) : List Request → List Request × List Request × Option Int
  | [] => ([], [], none)
  | r :: rest =>
    let t := reapScan timeo now rest
    let ex := ssh_request_get_expiration r timeo
    if ktime_after ex now then
      (r :: t.1, t.2.1, kmin ex t.2.2)
    else if r.locked then
      (r :: t.1, t.2.1, t.2.2)
    else
      (t.1, { r with locked := true, pending := false } :: t.2.1, t.2.2)

/--
ssh_rtl_timeout_reap: walk the pending list claiming expired requests (each
claim decrements the pending counter), then outside the lock complete every
claimed request that was not already COMPLETED with -ETIMEDOUT, clamp the next
wake to at least now + resolution, and re-arm the reaper if the next wake is
finite.  Returns (new pending counter, remaining pending list, completion
events, re-arm target or none).
-/
def ssh_rtl_timeout_reap (timeo res now : Int) (cnt : Nat) (plist : List Request) :
    Nat × List Request × List (Nat × Ev) × Option Int :=
  let t := reapScan timeo now plist
  let evs := t.2.1.filterMap
    (fun r => if r.completed then none else some (r.id, Ev.st (-ETIMEDOUT)))
  (cnt - t.2.1.length, t.1, evs, kmax t.2.2 (some (now + res)))

/-- The remaining pending list after the reaper walk keeps exactly the
requests that are not yet expired or were already locked. -/
theorem reapScan_remaining (timeo now : Int) (l : List Request) :
    (reapScan timeo now l).1
      = l.filter (fun r => ktime_after (ssh_request_get_expiration r timeo) now || r.locked) := by
  induction l with
  | nil => rfl
  | cons r rest ih =>
    unfold reapScan
    rcases ha : ktime_after (ssh_request_get_expiration r timeo) now <;>
      rcases hl : r.locked <;> simp [List.filter_cons, ha, hl, ih]

/-- The claimed list holds exactly the expired, not-already-locked requests,
each with LOCKED set and PENDING cleared, in pending-list order. -/
theorem reapScan_claimed (timeo now : Int) (l : List Request) :
    (reapScan timeo now l).2.1
      = (l.filter (fun r =>
            !(ktime_after (ssh_request_get_expiration r timeo) now) && !r.locked)).map
          (fun r => { r with locked := true, pending := false }) := by
  induction l with
  | nil => rfl
  | cons r rest ih =>
    unfold reapScan
    rcases ha : ktime_after (ssh_request_get_expiration r timeo) now <;>
      rcases hl : r.locked <;> simp [List.filter_cons, ha, hl, ih]

/-- The next wake time computed by the walk is the kmin-fold of the
expirations of the not-yet-expired requests. -/
theorem reapScan_next (timeo now : Int) (l : List Request) :
    (reapScan timeo now l).2.2
      = l.foldr (fun r acc =>
          if ktime_after (ssh_request_get_expiration r timeo) now then
            kmin (ssh_request_get_expiration r timeo) acc
          else acc) none := by
  induction l with
  | nil => rfl
  | cons r rest ih =>
    unfold reapScan
    rcases ha : ktime_after (ssh_request_get_expiration r timeo) now <;>
      rcases hl : r.locked <;> simp [ha, hl, ih]

/-- The completion events of the reaper: every claimed request that was not
already COMPLETED, completed with -ETIMEDOUT, in order. -/
theorem reap_events (timeo now : Int) (l : List Request) :
    (reapScan timeo now l).2.1.filterMap
        (fun r => if r.completed then none else some (r.id, Ev.st (-ETIMEDOUT)))
      = (l.filter (fun r =>
            !(ktime_after (ssh_request_get_expiration r timeo) now) && !r.locked
              && !r.completed)).map
          (fun r => (r.id, Ev.st (-ETIMEDOUT))) := by
  induction l with
  | nil => rfl
  | cons r rest ih =>
    unfold reapScan
    rcases ha : ktime_after (ssh_request_get_expiration r timeo) now <;>
      rcases hl : r.locked <;> rcases hc : r.completed <;>
      simp [List.filter_cons, ha, hl, hc, ih]

/-- C6: in one reaper run with timeout SSH_RTL_REQUEST_TIMEOUT, the remaining
pending list keeps exactly the requests whose recorded expiration is still
after now or which were already locked (the reaper lost the LOCKED race);
every expired request on which the reaper won LOCKED is removed from the
pending set, the counter is decremented once per removal, and each removed
request not already COMPLETED is completed with -ETIMEDOUT; the next wake is
the minimum expiration of the not-yet-expired requests, clamped to at least
now + SSH_RTL_REQUEST_TIMEOUT_RESOLUTION. -/
theorem C6_timeout_reap (hz now : Int) (cnt : Nat) (plist : List Request) :
    (ssh_rtl_timeout_reap SSH_RTL_REQUEST_TIMEOUT
        (SSH_RTL_REQUEST_TIMEOUT_RESOLUTION hz) now cnt plist).2.1
      = plist.filter (fun r =>
          ktime_after (ssh_request_get_expiration r SSH_RTL_REQUEST_TIMEOUT) now
            || r.locked)
    ∧ (ssh_rtl_timeout_reap SSH_RTL_REQUEST_TIMEOUT
        (SSH_RTL_REQUEST_TIMEOUT_RESOLUTION hz) now cnt plist).2.2.1
      = (plist.filter (fun r =>
          !(ktime_after (ssh_request_get_expiration r SSH_RTL_REQUEST_TIMEOUT) now)
            && !r.locked && !r.completed)).map
          (fun r => (r.id, Ev.st (-ETIMEDOUT)))
    ∧ (ssh_rtl_timeout_reap SSH_RTL_REQUEST_TIMEOUT
        (SSH_RTL_REQUEST_TIMEOUT_RESOLUTION hz) now cnt plist).1
      = cnt - (plist.filter (fun r =>
          !(ktime_after (ssh_request_get_expiration r SSH_RTL_REQUEST_TIMEOUT) now)
            && !r.locked)).length
    ∧ (ssh_rtl_timeout_reap SSH_RTL_REQUEST_TIMEOUT
        (SSH_RTL_REQUEST_TIMEOUT_RESOLUTION hz) now cnt plist).2.2.2
      = kmax (plist.foldr (fun r acc =>
          if ktime_after (ssh_request_get_expiration r SSH_RTL_REQUEST_TIMEOUT) now
          then kmin (ssh_request_get_expiration r SSH_RTL_REQUEST_TIMEOUT) acc
          else acc) none)
          (some (now + SSH_RTL_REQUEST_TIMEOUT_RESOLUTION hz)) := by
  refine ⟨?_, ?_, ?_, ?_⟩
  · simpa [ssh_rtl_timeout_reap] using
      reapScan_remaining SSH_RTL_REQUEST_TIMEOUT now plist
  · simpa [ssh_rtl_timeout_reap] using
      reap_events SSH_RTL_REQUEST_TIMEOUT now plist
  · simp [ssh_rtl_timeout_reap, reapScan_claimed SSH_RTL_REQUEST_TIMEOUT now plist]
  · simp [ssh_rtl_timeout_reap, reapScan_next SSH_RTL_REQUEST_TIMEOUT now plist]

end SshRtl

namespace SshRtl

/-! ### Completion dispatcher: ssh_rtl_complete -/

/-- list_del of the first node satisfying p (the node the dispatcher matched
and unlinked). -/
def eraseFirst (p : Request → Bool) : List Request → List Request
  | [] => []
  | r :: rest => if p r then rest else r :: eraseFirst p rest

/--
ssh_rtl_complete(rtl, command, command_data) after parsing rqid: scan the
pending list for the first request whose rqid matches; if none, warn and drop.
On a match, set LOCKED and RSPRCVD, clear PENDING, decrement the counter and
unlink (the error-injection hook ssh_rtl_should_drop_response is constant
false and elided).  Then test_and_set COMPLETED: if it was already set
(cancellation won the race) just drop the reference.  Otherwise, if
TRANSMITTED is not set, remove the request from the queue if still present and
complete it with - EREMOTEIO; else complete it with the command and payload
(status 0).  Returns the new layer state and the completion events.
-/
def ssh_rtl_complete (rtl : RtlState) (rqid : Nat) : RtlState × List (Nat × Ev) :=
  match rtl.pendingList.find? (fun p => p.rqid == rqid) with
  | none => (rtl, [])
  | some p =>
      let p1 : Request := { p with locked := true, rsprcvd := true, pending := false }
      let rtl1 : RtlState := { rtl with
          pendingCount := rtl.pendingCount - 1,
          pendingList := eraseFirst (fun q => q.rqid == rqid) rtl.pendingList }
      if p1.completed then (rtl1, [])
      else
        let p2 : Request := { p1 with completed := true }
        if !p2.transmitted then
          (if p2.queued then
             { rtl1 with queue := eraseFirst (fun q => q.id == p2.id) rtl1.queue }
           else rtl1,
           [(p2.id, Ev.st (- EREMOTEIO))])
        else (rtl1, [(p2.id, Ev.rsp)])

/-- C5: when the dispatcher matches a response to a pending request (the first
pending request with the response's rqid) and wins the completion race (the
request's COMPLETED bit was not yet set), the request is unlinked from the
pending list and the counter decremented; if its TRANSMITTED bit is not set
(response observed before the PTL ACK), the request is removed from the queue
if still present there and completed with - EREMOTEIO; otherwise it is
completed with the command and payload and status 0 (event Ev.rsp), leaving
the queue untouched. -/
theorem C5_response_completion (rtl : RtlState) (rqid : Nat) (p : Request)
    (hfind : rtl.pendingList.find? (fun q => q.rqid == rqid) = some p)
    (hcomp : p.completed = false) :
    (ssh_rtl_complete rtl rqid).1.pendingList
        = eraseFirst (fun q => q.rqid == rqid) rtl.pendingList
    ∧ (ssh_rtl_complete rtl rqid).1.pendingCount = rtl.pendingCount - 1
    ∧ (p.transmitted = false →
        (ssh_rtl_complete rtl rqid).2 = [(p.id, Ev.st (- EREMOTEIO))]
        ∧ (ssh_rtl_complete rtl rqid).1.queue
            = (if p.queued then eraseFirst (fun q => q.id == p.id) rtl.queue
               else rtl.queue))
    ∧ (p.transmitted = true →
        (ssh_rtl_complete rtl rqid).2 = [(p.id, Ev.rsp)]
        ∧ (ssh_rtl_complete rtl rqid).1.queue = rtl.queue) := by
  unfold ssh_rtl_complete
  rw [hfind]
  simp only [hcomp]
  rcases ht : p.transmitted <;> rcases hq : p.queued <;> simp_all

/-- Example pending request with a response outstanding, for the C5 witness. -/
def reqPend : Request :=
  { id := 3, rqid := 66, hasResponse := true, seqd := true, ptlBound := true,
    transmitting := false, transmitted := true, pending := true,
    submitted := true, cbDone := true, timestamp := some 5 }

/-- Witness for C5: a matching response for a transmitted pending request
completes it with the command and payload. -/
theorem C5_response_completion_witness :
    (ssh_rtl_complete { pendingCount := 1, pendingList := [reqPend] } 66).2
      = [(3, Ev.rsp)] :=
  ((C5_response_completion { pendingCount := 1, pendingList := [reqPend] } 66 reqPend
      (by decide) (by decide)).2.2.2 (by decide)).1

end SshRtl

namespace SshRtl

/-! ### Per-request finalisation paths

These functions give the effect of each code path on a single request's state
word, together with the completion events it emits for that request.  List
membership is projected to the request's QUEUED / PENDING bit (the code keeps
bit and membership in sync under the respective lock).  Each function is one
atomic step of the race machine below. -/

/--
ssh_rtl_packet_callback(p, status), the packet completion callback invoked by
the PTL.  Failure status: set LOCKED; if test_and_set COMPLETED was already
set, return; else remove from queue and pending and complete with the status.
Success: set TRANSMITTED then clear TRANSMITTING; if HAS_RESPONSE, arm the
timeout and return (the timestamp write is elided here; the reaper model takes
timestamps as given); else set LOCKED, and unless COMPLETED was already set,
remove from pending and complete with status 0.
-/
def ssh_rtl_packet_callback (status : Int) (r : Request) : Request × List Ev :=
  if status ≠ 0 then
    if r.completed then ({ r with locked := true }, [])
    else ({ r with locked := true, completed := true, queued := false, pending := false },
          [Ev.st status])
  else
    let r1 : Request := { r with transmitted := true, transmitting := false }
    if r1.hasResponse then (r1, [])
    else if r1.completed then ({ r1 with locked := true }, [])
    else ({ r1 with locked := true, completed := true, pending := false }, [Ev.st 0])

/-- The standalone packet-callback step: the PTL invokes the completion
callback at most once, and only for packets it accepted. -/
def pktCallbackStep (status : Int) (r : Request) : Request × List Ev :=
  if r.submitted && !r.cbDone then
    ssh_rtl_packet_callback status { r with cbDone := true }
  else (r, [])

/-- Effect of ssh_ptl_cancel on the request: if the packet had not yet been
completed by the PTL, the cancel may synchronously invoke the packet
completion callback with a failure status (the oracle cb; none = the PTL did
not complete the packet during the cancel call). -/
def ptl_cancel_effect (cb : Option Int) (r : Request) : Request × List Ev :=
  match cb with
  | none => (r, [])
  | some st =>
      if !r.cbDone && st ≠ 0 then
        ssh_rtl_packet_callback st { r with cbDone := true }
      else (r, [])

/--
ssh_rtl_cancel_pending: test_and_set LOCKED, returning true if it was already
set (the request is being finalised elsewhere).  If packet.ptl is NULL,
complete directly with -ECANCELED (unless COMPLETED was already set).
Otherwise call ssh_ptl_cancel (which may synchronously run the packet
callback), then test_and_set COMPLETED: if we won, remove the request from
queue and pending and complete with -ECANCELED.  Always returns true.
-/
def ssh_rtl_cancel_pending (cb : Option Int) (r : Request) : Bool × Request × List Ev :=
  if r.locked then (true, r, [])
  else
    let r1 : Request := { r with locked := true }
    if !r1.ptlBound then
      if r1.completed then (true, r1, [])
      else (true, { r1 with completed := true }, [Ev.st (-ECANCELED)])
    else
      let t := ptl_cancel_effect cb r1
      if t.1.completed then (true, t.1, t.2)
      else (true, { t.1 with completed := true, queued := false, pending := false },
            t.2 ++ [Ev.st (-ECANCELED)])

/--
ssh_rtl_cancel_nonpending: cmpxchg the state word from "only type flags" to
LOCKED plus the type flags (the new value follows the mainline masks for
SSH_REQUEST_FLAGS_TY_MASK, whose definition lives in the repository header not
present under src/; the branch is unreachable from ssh_rtl_cancel anyway,
since CANCELED has already been set and makes the compare fail).  If the
exchanged old word was zero and packet.ptl is NULL, the request was never
submitted: complete directly with -ECANCELED.  Otherwise, under the queue
lock, test_and_clear QUEUED; if it was clear, the request has progressed to
transmission: return false.  Else set LOCKED, unlink, and complete with
-ECANCELED unless COMPLETED was already set.
-/
def ssh_rtl_cancel_nonpending (r : Request) : Bool × Request × List Ev :=
  let sfZero := !r.queued && !r.transmitting && !r.transmitted && !r.pending &&
                !r.rsprcvd && !r.locked && !r.canceled && !r.completed
  let r1 : Request := if sfZero then { r with locked := true } else r
  if sfZero && !r.hasResponse && !r.flush && !r.ptlBound then
    if r1.completed then (true, r1, [])
    else (true, { r1 with completed := true }, [Ev.st (-ECANCELED)])
  else
    if !r1.queued then (false, r1, [])
    else
      let r2 : Request := { r1 with queued := false, locked := true }
      if r2.completed then (true, r2, [])
      else (true, { r2 with completed := true }, [Ev.st (-ECANCELED)])

/--
ssh_rtl_cancel(rqst, pending): test_and_set CANCELED, returning true at once
if it was already set (another cancel ran or is running); otherwise run the
branch selected by the pending hint.  The tx-schedule call on success has no
effect on the request itself and is elided.
-/
def ssh_rtl_cancel (pending : Bool) (cb : Option Int) (r : Request) :
    Bool × Request × List Ev :=
  if r.canceled then (true, r, [])
  else if pending then ssh_rtl_cancel_pending cb { r with canceled := true }
  else ssh_rtl_cancel_nonpending { r with canceled := true }

/--
ssh_rtl_tx_try_process_one on this request when ssh_ptl_submit accepts the
packet: dequeue (mark TRANSMITTING, clear QUEUED; requires the request not
locked) and push to pending (PENDING set; the push cannot fail here since at
step granularity the LOCKED and PENDING bits are unchanged since the
dequeue).  The pending-window gate only affects scheduling and is modelled in
the window machine.
-/
def txHandOk (r : Request) : Request × List Ev :=
  if r.queued && !r.locked && !r.pending then
    ({ r with queued := false, transmitting := true, pending := true, submitted := true }, [])
  else (r, [])

/--
ssh_rtl_tx_try_process_one when ssh_ptl_submit refuses the packet with
-ESHUTDOWN: set LOCKED, remove from pending again, and complete with
-ESHUTDOWN.  Note that this path completes the request without setting
COMPLETED.  (The remaining ssh_ptl_submit failure, -EINVAL for a packet locked
by a concurrent cancellation, cannot occur at the atomic-step granularity,
since cancellation locks the packet and removes the request from pending in
one step.)
-/
def txHandShutdown (r : Request) : Request × List Ev :=
  if r.queued && !r.locked && !r.pending then
    ({ r with queued := false, transmitting := true, locked := true },
     [Ev.st (-ESHUTDOWN)])
  else (r, [])

/-- The timeout reaper claiming this request (projection of
ssh_rtl_timeout_reap to one request; the expiry condition only restricts when
the step can fire and is dropped, admitting strictly more traces): if the
request is pending, try to set LOCKED; if won, clear PENDING, unlink, and
complete with -ETIMEDOUT unless COMPLETED was already set. -/
def reapOne (r : Request) : Request × List Ev :=
  if r.pending && !r.locked then
    let r1 : Request := { r with locked := true, pending := false }
    if r1.completed then (r1, [])
    else ({ r1 with completed := true }, [Ev.st (-ETIMEDOUT)])
  else (r, [])

/-- The completion dispatcher matching a response to this request (projection
of ssh_rtl_complete to one request): only a request in the pending list can
match; set LOCKED and RSPRCVD, clear PENDING, unlink, then unless COMPLETED
was already set, complete with - EREMOTEIO (removing from the queue if still
present) when TRANSMITTED is unset, else with the response. -/
def respMatchOne (r : Request) : Request × List Ev :=
  if r.pending then
    let r1 : Request := { r with locked := true, rsprcvd := true, pending := false }
    if r1.completed then (r1, [])
    else
      let r2 : Request := { r1 with completed := true }
      if !r2.transmitted then ({ r2 with queued := false }, [Ev.st (- EREMOTEIO)])
      else (r2, [Ev.rsp])
  else (r, [])

/-- ssh_rtl_shutdown draining this request from the queue: set LOCKED, clear
QUEUED, unlink, then complete with -ESHUTDOWN unless COMPLETED was already
set. -/
def drainQueueOne (r : Request) : Request × List Ev :=
  if r.queued then
    let r1 : Request := { r with locked := true, queued := false }
    if r1.completed then (r1, [])
    else ({ r1 with completed := true }, [Ev.st (-ESHUTDOWN)])
  else (r, [])

/-- ssh_rtl_shutdown draining this request from the pending set: set LOCKED,
clear PENDING, unlink, then complete with -ESHUTDOWN unless COMPLETED was
already set. -/
def drainPendingOne (r : Request) : Request × List Ev :=
  if r.pending then
    let r1 : Request := { r with locked := true, pending := false }
    if r1.completed then (r1, [])
    else ({ r1 with completed := true }, [Ev.st (-ESHUTDOWN)])
  else (r, [])

/-! ### The completion race machine -/

/-- One atomic step of some thread acting on the request: the transmitter
(successful handoff, or handoff refused by a shutting-down PTL), the packet
completion callback from the PTL receiver, the completion dispatcher matching
a response, the timeout reaper, a client cancellation (with its pending hint
and the PTL-cancel oracle), or the shutdown drains. -/
inductive Step where
  | txOk : Step
  | txShutdown : Step
  | pktCb : Int → Step
  | resp : Step
  | reap : Step
  | cancel : Bool → Option Int → Step
  | drainQ : Step
  | drainP : Step

def applyStep : Step → Request → Request × List Ev
  | Step.txOk, r => txHandOk r
  | Step.txShutdown, r => txHandShutdown r
  | Step.pktCb st, r => pktCallbackStep st r
  | Step.resp, r => respMatchOne r
  | Step.reap, r => reapOne r
  | Step.cancel p cb, r => ((ssh_rtl_cancel p cb r).2.1, (ssh_rtl_cancel p cb r).2.2)
  | Step.drainQ, r => drainQueueOne r
  | Step.drainP, r => drainPendingOne r

/-- Run a trace of steps, accumulating the completion events. -/
def runSteps : List Step → Request → Request × List Ev
  | [], r => (r, [])
  | s :: ss, r =>
    let t := applyStep s r
    let u := runSteps ss t.1
    (u.1, t.2 ++ u.2)

/-- The state of a request just after ssh_rtl_submit returned 0: QUEUED set,
packet.ptl bound, every other state bit clear; type bits arbitrary. -/
def submittedInit (hr fl sq : Bool) (i q : Nat) : Request :=
  { id := i, rqid := q, hasResponse := hr, flush := fl, seqd := sq,
    queued := true, ptlBound := true }

/--
Inductive invariant of the race machine, relating the number n of complete
invocations so far to the request state: complete has been invoked exactly
once iff LOCKED is set; COMPLETED implies LOCKED; QUEUED and PENDING each
exclude LOCKED and each other; an accepted packet implies the request left the
queue; a locked request is COMPLETED unless its packet was never accepted
(the tx -ESHUTDOWN path); the ptl back-pointer stays bound.
-/
def Inv (r : Request) (n : Nat) : Prop :=
  n = (if r.locked = true then 1 else 0)
  ∧ (r.completed = true → r.locked = true)
  ∧ (r.queued = true → r.locked = false)
  ∧ (r.pending = true → r.locked = false)
  ∧ (r.queued = false ∨ r.pending = false)
  ∧ (r.submitted = true → r.queued = false)
  ∧ (r.locked = true → (r.completed = true ∨ r.submitted = false))
  ∧ r.ptlBound = true

theorem inv_txHandOk (r : Request) (n : Nat) (h : Inv r n) :
    Inv (txHandOk r).1 (n + (txHandOk r).2.length) := by
  unfold Inv at h ⊢
  unfold txHandOk
  split_ifs <;> simp_all

theorem inv_txHandShutdown (r : Request) (n : Nat) (h : Inv r n) :
    Inv (txHandShutdown r).1 (n + (txHandShutdown r).2.length) := by
  unfold Inv at h ⊢
  unfold txHandShutdown
  split_ifs <;> simp_all

theorem inv_pktCallbackStep (st : Int) (r : Request) (n : Nat) (h : Inv r n) :
    Inv (pktCallbackStep st r).1 (n + (pktCallbackStep st r).2.length) := by
  obtain ⟨h1, h2, h3, h4, h5, h6, h7, h8⟩ := h
  unfold pktCallbackStep ssh_rtl_packet_callback Inv
  rcases hs : r.submitted <;> rcases hcb : r.cbDone <;>
    rcases hc : r.completed <;> rcases hhr : r.hasResponse <;>
    rcases hl : r.locked <;> rcases hp : r.pending <;>
    by_cases hst : st = 0 <;> simp_all

theorem inv_respMatchOne (r : Request) (n : Nat) (h : Inv r n) :
    Inv (respMatchOne r).1 (n + (respMatchOne r).2.length) := by
  obtain ⟨h1, h2, h3, h4, h5, h6, h7, h8⟩ := h
  unfold respMatchOne Inv
  rcases hp : r.pending <;> rcases hc : r.completed <;>
    rcases ht : r.transmitted <;> rcases hl : r.locked <;> simp_all

theorem inv_reapOne (r : Request) (n : Nat) (h : Inv r n) :
    Inv (reapOne r).1 (n + (reapOne r).2.length) := by
  obtain ⟨h1, h2, h3, h4, h5, h6, h7, h8⟩ := h
  unfold reapOne Inv
  rcases hp : r.pending <;> rcases hc : r.completed <;>
    rcases hl : r.locked <;> simp_all

theorem inv_drainQueueOne (r : Request) (n : Nat) (h : Inv r n) :
    Inv (drainQueueOne r).1 (n + (drainQueueOne r).2.length) := by
  obtain ⟨h1, h2, h3, h4, h5, h6, h7, h8⟩ := h
  unfold drainQueueOne Inv
  rcases hq : r.queued <;> rcases hc : r.completed <;>
    rcases hl : r.locked <;> simp_all

theorem inv_drainPendingOne (r : Request) (n : Nat) (h : Inv r n) :
    Inv (drainPendingOne r).1 (n + (drainPendingOne r).2.length) := by
  obtain ⟨h1, h2, h3, h4, h5, h6, h7, h8⟩ := h
  unfold drainPendingOne Inv
  rcases hp : r.pending <;> rcases hc : r.completed <;>
    rcases hl : r.locked <;> simp_all

theorem inv_set_canceled (r : Request) (n : Nat) (h : Inv r n) :
    Inv { r with canceled := true } n := by
  obtain ⟨h1, h2, h3, h4, h5, h6, h7, h8⟩ := h
  unfold Inv
  simp_all

theorem inv_cancel_pending (cb : Option Int) (r : Request) (n : Nat) (h : Inv r n) :
    Inv (ssh_rtl_cancel_pending cb r).2.1
      (n + (ssh_rtl_cancel_pending cb r).2.2.length) := by
  obtain ⟨h1, h2, h3, h4, h5, h6, h7, h8⟩ := h
  unfold ssh_rtl_cancel_pending ptl_cancel_effect ssh_rtl_packet_callback Inv
  rcases cb with _ | st <;>
    rcases hl : r.locked <;> rcases hc : r.completed <;>
    rcases hcb : r.cbDone <;> rcases hq : r.queued <;> rcases hp : r.pending <;>
    try rcases hhr : r.hasResponse
  all_goals try by_cases hst : st = 0
  all_goals simp_all

theorem inv_cancel_nonpending (r : Request) (n : Nat) (h : Inv r n)
    (hc : r.canceled = true) :
    Inv (ssh_rtl_cancel_nonpending r).2.1
      (n + (ssh_rtl_cancel_nonpending r).2.2.length) := by
  obtain ⟨h1, h2, h3, h4, h5, h6, h7, h8⟩ := h
  unfold ssh_rtl_cancel_nonpending Inv
  rcases hq : r.queued <;> rcases hl : r.locked <;> rcases hco : r.completed <;>
    simp_all

theorem inv_cancel (p : Bool) (cb : Option Int) (r : Request) (n : Nat) (h : Inv r n) :
    Inv (ssh_rtl_cancel p cb r).2.1 (n + (ssh_rtl_cancel p cb r).2.2.length) := by
  unfold ssh_rtl_cancel
  rcases hcanc : r.canceled with _ | _
  · rcases p with _ | _
    · have h2 := inv_cancel_nonpending { r with canceled := true } n
        (inv_set_canceled r n h) rfl
      simpa [hcanc] using h2
    · have h2 := inv_cancel_pending cb { r with canceled := true } n
        (inv_set_canceled r n h)
      simpa [hcanc] using h2
  · simpa [hcanc] using h

theorem inv_applyStep (s : Step) (r : Request) (n : Nat) (h : Inv r n) :
    Inv (applyStep s r).1 (n + (applyStep s r).2.length) := by
  cases s with
  | txOk => exact inv_txHandOk r n h
  | txShutdown => exact inv_txHandShutdown r n h
  | pktCb st => exact inv_pktCallbackStep st r n h
  | resp => exact inv_respMatchOne r n h
  | reap => exact inv_reapOne r n h
  | cancel p cb => exact inv_cancel p cb r n h
  | drainQ => exact inv_drainQueueOne r n h
  | drainP => exact inv_drainPendingOne r n h

theorem inv_runSteps (tr : List Step) (r : Request) (n : Nat) (h : Inv r n) :
    Inv (runSteps tr r).1 (n + (runSteps tr r).2.length) := by
  induction tr generalizing r n with
  | nil => simpa [runSteps] using h
  | cons s ss ih =>
    have h1 := inv_applyStep s r n h
    have h2 := ih (applyStep s r).1 (n + (applyStep s r).2.length) h1
    simpa [runSteps, Nat.add_assoc] using h2

/-- C1: for every request for which ssh_rtl_submit returned 0 (state QUEUED
with the ptl bound), along every interleaving of the racing finalisation paths
(response match, packet-callback failure or fire-and-forget success, timeout
reap, cancellation with either hint, shutdown drains, and the transmitter's
handoff paths), the client's complete callback is invoked at most once, and it
has been invoked exactly once precisely when the request has been finalised
(its LOCKED bit set); in particular once COMPLETED is set, complete has been
invoked exactly once. -/
theorem C1_complete_exactly_once (hr fl sq : Bool) (i q : Nat) (tr : List Step) :
    (runSteps tr (submittedInit hr fl sq i q)).2.length ≤ 1
    ∧ ((runSteps tr (submittedInit hr fl sq i q)).2.length = 1
        ↔ (runSteps tr (submittedInit hr fl sq i q)).1.locked = true)
    ∧ ((runSteps tr (submittedInit hr fl sq i q)).1.completed = true →
        (runSteps tr (submittedInit hr fl sq i q)).2.length = 1) := by
  have h0 : Inv (submittedInit hr fl sq i q) 0 := by
    unfold Inv submittedInit
    simp
  have h := inv_runSteps tr (submittedInit hr fl sq i q) 0 h0
  unfold Inv at h
  obtain ⟨h1, h2, _⟩ := h
  rw [Nat.zero_add] at h1
  refine ⟨?_, ?_, ?_⟩
  · rw [h1]
    split <;> omega
  · rw [h1]
    rcases hl : (runSteps tr (submittedInit hr fl sq i q)).1.locked <;> simp [hl]
  · intro hc
    rw [h1, h2 hc]
    simp

/-- Witness for C1: a single pending-hint cancellation of a freshly submitted
request completes it exactly once. -/
theorem C1_complete_exactly_once_witness :
    (runSteps [Step.cancel true none] (submittedInit true true true 7 70)).2.length = 1 :=
  (C1_complete_exactly_once true true true 7 70 [Step.cancel true none]).2.2 (by decide)

end SshRtl

namespace SshRtl

/-! ### Cancellation theorems -/

/-- The packet completion callback does not touch the CANCELED bit. -/
theorem pktcb_canceled (st : Int) (r : Request) :
    ((ssh_rtl_packet_callback st r).1).canceled = r.canceled := by
  unfold ssh_rtl_packet_callback
  by_cases hst : st = 0 <;> rcases hc : r.completed <;>
    rcases hhr : r.hasResponse <;> simp_all

/-- ssh_ptl_cancel does not touch the request's CANCELED bit. -/
theorem ptl_cancel_effect_canceled (cb : Option Int) (r : Request) :
    ((ptl_cancel_effect cb r).1).canceled = r.canceled := by
  rcases cb with _ | st
  · rfl
  · have h := pktcb_canceled st { r with cbDone := true }
    simp only [ptl_cancel_effect]
    split_ifs <;> simp_all

/-- The pending cancellation branch does not touch the CANCELED bit. -/
theorem cancel_pending_canceled (cb : Option Int) (r : Request) :
    ((ssh_rtl_cancel_pending cb r).2.1).canceled = r.canceled := by
  have h := ptl_cancel_effect_canceled cb { r with locked := true }
  simp only [ssh_rtl_cancel_pending]
  split_ifs <;> simp_all

/-- The non-pending cancellation branch does not touch the CANCELED bit. -/
theorem cancel_nonpending_canceled (r : Request) :
    ((ssh_rtl_cancel_nonpending r).2.1).canceled = r.canceled := by
  simp only [ssh_rtl_cancel_nonpending]
  split_ifs <;> rfl

/-- Every call to ssh_rtl_cancel leaves the CANCELED bit set: it is set by the
entry test_and_set and never cleared by either branch. -/
theorem cancel_sets_canceled (p : Bool) (cb : Option Int) (r : Request) :
    ((ssh_rtl_cancel p cb r).2.1).canceled = true := by
  rcases hc : r.canceled
  · rcases p
    · have h := cancel_nonpending_canceled { r with canceled := true }
      simp only [ssh_rtl_cancel, hc]
      simpa using h
    · have h := cancel_pending_canceled cb { r with canceled := true }
      simp only [ssh_rtl_cancel, hc]
      simpa using h
  · simp [ssh_rtl_cancel, hc]

/-- On a request whose CANCELED bit is already set, ssh_rtl_cancel returns
true immediately, changing nothing and invoking no callback. -/
theorem cancel_on_canceled (p : Bool) (cb : Option Int) (r : Request)
    (h : r.canceled = true) : ssh_rtl_cancel p cb r = (true, r, []) := by
  unfold ssh_rtl_cancel
  simp [h]

/-- C9: ssh_rtl_cancel is idempotent: for every request, every pair of pending
hints and every behaviour of the packet layer's cancel call, once one cancel
call has been made (setting CANCELED), any repeated cancel call returns true,
leaves the request state unchanged, and emits no completion event (does not
invoke the request's complete callback a second time): the first caller to
atomically set CANCELED runs the cancellation, later callers return true
immediately. -/
theorem C9_cancel_idempotent (r : Request) (p1 p2 : Bool) (cb1 cb2 : Option Int) :
    ssh_rtl_cancel p2 cb2 (ssh_rtl_cancel p1 cb1 r).2.1
      = (true, (ssh_rtl_cancel p1 cb1 r).2.1, []) :=
  cancel_on_canceled p2 cb2 _ (cancel_sets_canceled p1 cb1 r)

/-- ssh_rtl_cancel_pending returns true on every path. -/
theorem cancel_pending_true_aux (cb : Option Int) (r : Request) :
    (ssh_rtl_cancel_pending cb r).1 = true := by
  simp only [ssh_rtl_cancel_pending]
  split_ifs <;> rfl

/-- C10: ssh_rtl_cancel with the pending hint set always returns true, for
every request in every state: every return statement of
ssh_rtl_cancel_pending returns true, and the already-CANCELED early return of
ssh_rtl_cancel does too, so only the non-pending branch can ever return
false. -/
theorem C10_cancel_pending_true (r : Request) (cb : Option Int) :
    (ssh_rtl_cancel true cb r).1 = true
    ∧ (ssh_rtl_cancel_pending cb r).1 = true := by
  refine ⟨?_, cancel_pending_true_aux cb r⟩
  unfold ssh_rtl_cancel
  rcases hc : r.canceled <;> simp [hc, cancel_pending_true_aux]

end SshRtl

namespace SshRtl

/-! ### Pending window machine (C2)

A transition system for the pending set: the single serialized transmitter
(holding at most one dequeued request between its ssh_rtl_tx_next and
ssh_rtl_tx_pending_push calls, the only path that adds to the set) races
against the removal paths (completion dispatcher, packet callback, reaper,
cancellation), which only shrink the set. -/

/-- ssh_rtl_tx_pending_push: under the pending lock, fail with -EINVAL if the
request is locked, with -EALREADY if its PENDING bit is already set; otherwise
set PENDING, increment the counter and append to the pending list. -/
def ssh_rtl_tx_pending_push (cnt : Nat) (plist : List Request) (r : Request) :
    Int × Nat × List Request :=
  if r.locked then (-EINVAL, cnt, plist)
  else if r.pending then (-EALREADY, cnt, plist)
  else (0, cnt + 1, plist ++ [{ r with pending := true }])

/-- State of the pending window: counter, list, and the request the
transmitter currently holds between dequeue and pending push (none if the
transmitter is not between the two; the transmitter work item is a single
serialized worker, so there is at most one such request). -/
structure PendState where
  count : Nat := 0
  plist : List Request := []
  holding : Option Request := none

/-- Steps of the window machine: the transmitter dequeues an eligible request
(ssh_rtl_tx_next: first non-locked request, gated by ssh_rtl_tx_can_process on
the current counter); the transmitter pushes the held request
(ssh_rtl_tx_pending_push, which may fail and add nothing); any other path
removes a request from the pending set (ssh_rtl_pending_remove /
ssh_rtl_complete / ssh_rtl_timeout_reap, which clear PENDING, decrement the
counter and unlink). -/
inductive PStep where
  | dequeue : Request → PStep
  | push : PStep
  | remove : Nat → PStep

def applyPStep : PStep → PendState → PendState
  | PStep.dequeue r, s =>
      if s.holding = none ∧ r.locked = false
          ∧ ssh_rtl_tx_can_process s.count r.flush = true then
        { s with holding := some { r with transmitting := true, queued := false } }
      else s
  | PStep.push, s =>
      match s.holding with
      | none => s
      | some r =>
          let t := ssh_rtl_tx_pending_push s.count s.plist r
          { count := t.2.1, plist := t.2.2, holding := none }
  | PStep.remove i, s =>
      if s.plist.any (fun q => q.id == i) then
        { s with count := s.count - 1,
                 plist := eraseFirst (fun q => q.id == i) s.plist }
      else s

def prun (tr : List PStep) (s : PendState) : PendState :=
  tr.foldl (fun s st => applyPStep st s) s

/-- Inductive invariant of the window machine: the counter equals the list
length and stays at most SSH_RTL_MAX_PENDING; while the transmitter holds a
dequeued request, the counter is small enough to admit it. -/
def PInv (s : PendState) : Prop :=
  s.count = s.plist.length ∧ s.count ≤ SSH_RTL_MAX_PENDING
  ∧ (∀ r, s.holding = some r → s.count + 1 ≤ SSH_RTL_MAX_PENDING)

theorem length_eraseFirst_of_any (p : Request → Bool) (l : List Request)
    (h : l.any p = true) : (eraseFirst p l).length + 1 = l.length := by
  induction l with
  | nil => simp at h
  | cons a as ih =>
    unfold eraseFirst
    rcases hp : p a
    · have h2 : as.any p = true := by
        rw [List.any_cons, hp] at h
        simpa using h
      have h3 := ih h2
      simp only [hp, Bool.false_eq_true, if_false, List.length_cons]
      omega
    · simp [hp]

theorem pinv_apply (st : PStep) (s : PendState) (h : PInv s) :
    PInv (applyPStep st s) := by
  obtain ⟨h1, h2, h3⟩ := h
  cases st with
  | dequeue r =>
    simp only [applyPStep]
    split_ifs with hg
    · obtain ⟨hn, hl, hcp⟩ := hg
      refine ⟨h1, h2, ?_⟩
      intro x hx
      show s.count + 1 ≤ SSH_RTL_MAX_PENDING
      unfold ssh_rtl_tx_can_process at hcp
      rcases hf : r.flush <;> rw [hf] at hcp
      · have hlt : s.count < SSH_RTL_MAX_PENDING := by simpa using hcp
        omega
      · have hz : s.count = 0 := by simpa using hcp
        simp [SSH_RTL_MAX_PENDING, hz]
    · exact ⟨h1, h2, h3⟩
  | push =>
    rcases hh : s.holding with _ | r
    · simp only [applyPStep, hh]
      exact ⟨h1, h2, h3⟩
    · have hcnt := h3 r hh
      simp only [applyPStep, hh, ssh_rtl_tx_pending_push]
      split_ifs
      · exact ⟨h1, h2, fun x hx => by simp at hx⟩
      · exact ⟨h1, h2, fun x hx => by simp at hx⟩
      · refine ⟨?_, ?_, fun x hx => by simp at hx⟩
        · show s.count + 1 = (s.plist ++ [{ r with pending := true }]).length
          simp [h1]
        · show s.count + 1 ≤ SSH_RTL_MAX_PENDING
          exact hcnt
  | remove i =>
    simp only [applyPStep]
    split_ifs with hg
    · have hlen := length_eraseFirst_of_any (fun q => q.id == i) s.plist hg
      refine ⟨?_, ?_, ?_⟩
      · show s.count - 1 = (eraseFirst (fun q => q.id == i) s.plist).length
        omega
      · show s.count - 1 ≤ SSH_RTL_MAX_PENDING
        omega
      · intro x hx
        have hx2 : s.holding = some x := hx
        have hc := h3 x hx2
        show s.count - 1 + 1 ≤ SSH_RTL_MAX_PENDING
        omega
    · exact ⟨h1, h2, h3⟩

theorem pinv_prun (tr : List PStep) (s : PendState) (h : PInv s) :
    PInv (prun tr s) := by
  induction tr generalizing s with
  | nil => simpa [prun] using h
  | cons st ss ih =>
    have h1 := pinv_apply st s h
    simpa [prun] using ih (applyPStep st s) h1

/-- C2: along every interleaving of the transmitter (dequeue gated by
ssh_rtl_tx_can_process, insertion via ssh_rtl_tx_pending_push) with the paths
that remove pending requests, starting from an empty pending set, the pending
counter and the pending list length never exceed SSH_RTL_MAX_PENDING = 3. -/
theorem C2_pending_bounded (tr : List PStep) :
    (prun tr {}).count ≤ SSH_RTL_MAX_PENDING
    ∧ (prun tr {}).plist.length ≤ SSH_RTL_MAX_PENDING := by
  have h0 : PInv {} := by
    refine ⟨rfl, by simp [SSH_RTL_MAX_PENDING], ?_⟩
    intro r hr
    simp at hr
  have h := pinv_prun tr {} h0
  obtain ⟨h1, h2, _⟩ := h
  exact ⟨h2, by omega⟩

end SshRtl
